import Mathlib

/-!
Verification of the base-station coordination core of the drone/robot
fleet project (`base station/backend/main.py`): device registry, issue
store with deduplication, pending-issue queue, Q-learning robot
selection and update, dispatch, and completion reconciliation.

Modelling conventions.  Python dictionaries (which preserve insertion
order) are modelled as association lists; Python floats as rationals;
the wall clock as an explicit `now` parameter; a TCP send to a robot as
a success oracle `sendOk : String → Bool` indexed by the robot ip,
together with an explicit trace of the emitted `MOVEMENT_COMMAND`
frames.  `calculate_distance` in the source is `sqrt(dx²+dy²)` fed only
into threshold comparisons at 30 and 60, so it is modelled by the
squared distance compared against 900 and 3600, which is equivalent
because `sqrt` is monotone on nonnegative numbers.
-/

namespace BaseStation

attribute [local semireducible] Rat.add Rat.mul Rat.sub Rat.inv Rat.ofScientific

/-- Lower-casing of a string, as Python `str.lower()` on the ASCII device
kinds used by the source (defined over the character list so that it
evaluates by reduction). -/
def pyLower (s : String) : String := ⟨s.data.map Char.toLower⟩

/-- A 3-D position, as the `{x, y, z}` dictionaries of the source. -/
structure Pos3 where
  x : ℚ
  y : ℚ
  z : ℚ
deriving DecidableEq, Repr

/-- Lookup in an association list (first matching key), as reading a
Python dict whose keys are unique. -/
def getAssoc {κ β : Type} [DecidableEq κ] : List (κ × β) → κ → Option β
  | [], _ => none
  | (k', v) :: rest, k => if k' = k then some v else getAssoc rest k

/-- Update the first matching key, or append, as a Python dict assignment. -/
def setAssoc {κ β : Type} [DecidableEq κ] : List (κ × β) → κ → β → List (κ × β)
  | [], k, v => [(k, v)]
  | (k', v') :: rest, k, v =>
    if k' = k then (k', v) :: rest else (k', v') :: setAssoc rest k v

/-- Remove the first matching key, as `del d[k]` on a Python dict. -/
def removeAssoc {κ β : Type} [DecidableEq κ] : List (κ × β) → κ → List (κ × β)
  | [], _ => []
  | (k', v) :: rest, k => if k' = k then rest else (k', v) :: removeAssoc rest k

/-- A Q-learning state `(issue_type, distance_bucket)`. -/
abbrev QState := String × String

/-- The Q-table `Q[state][robot_id] = value`, a nested dict in the source
(`defaultdict(lambda: defaultdict(float))`): unseen keys read as 0. -/
abbrev QTable := List (QState × List (String × ℚ))

/-- Learning rate `ALPHA = 0.1` of the source. -/
def ALPHA : ℚ := 1/10

/-- Exploration rate `EPSILON = 0.15` of the source. -/
def EPSILON : ℚ := 15/100

/-- Read `Q_table[state][robot_id]`; missing keys default to 0 as with
`defaultdict(float)` / `.get(robot_id, 0.0)`. -/
def qGet (q : QTable) (s : QState) (a : String) : ℚ :=
  (getAssoc ((getAssoc q s).getD []) a).getD 0

/-- Write `Q_table[state][robot_id] = v`. -/
def qSet : QTable → QState → String → ℚ → QTable
  | [], s, a, v => [(s, [(a, v)])]
  | (s', m) :: rest, s, a, v =>
    if s' = s then (s', setAssoc m a v) :: rest else (s', m) :: qSet rest s a v

/-- `update_q_table` of the source:
`Q[state][robot] ← old + ALPHA * (reward − old)`.  The 10%-probability
`save_q_table()` call that follows in the source performs only I/O and
never changes the in-memory table. -/
def update_q_table (q : QTable) (s : QState) (robot_id : String) (reward : ℚ) : QTable :=
  let old := qGet q s robot_id
  qSet q s robot_id (old + ALPHA * (reward - old))

/-- Squared 2-D distance between two positions (`calculate_distance`
squared; the source takes the square root but only ever compares the
result against the thresholds 30 and 60). -/
def calculate_distance_sq (p1 p2 : Pos3) : ℚ :=
  (p2.x - p1.x) * (p2.x - p1.x) + (p2.y - p1.y) * (p2.y - p1.y)

/-- `get_distance_bucket`, on the squared distance: near < 30 (900 squared),
medium < 60 (3600 squared), far otherwise. -/
def get_distance_bucket (dsq : ℚ) : String :=
  if dsq < 900 then "near" else if dsq < 3600 then "medium" else "far"

/-- `get_state`: the Q-learning state of a robot for an issue. -/
def get_state (issue_type : String) (robot_position issue_coordinates : Pos3) : QState :=
  (issue_type, get_distance_bucket (calculate_distance_sq robot_position issue_coordinates))

/-- The `current_task` record attached to a device on dispatch. -/
structure CurrentTask where
  issueType : String
  coords : Option Pos3
  assignedAt : ℚ
deriving DecidableEq, Repr

/-- A registry entry of the `devices` dict: identity, address, kind,
last known position, assignment slot (`task_id`), and status. -/
structure Device where
  devId : String
  ip : String
  deviceType : String
  position : Pos3
  taskId : Option Nat
  currentTask : Option CurrentTask
  status : String
deriving DecidableEq, Repr

/-- The availability test used throughout the source:
`dev.get("device_type","").lower() == "robot" and not dev.get("task_id")`. -/
def isAvailableRobot (d : Device) : Bool :=
  decide (pyLower d.deviceType = "robot" ∧ d.taskId = none)

/-- The enumeration inside `smart_select_robot`: all available robots in
devices-iteration (insertion) order with their id, ip, Q-state and
position. -/
def availableRobotEntries (issue_type : String) (issue_coordinates : Pos3)
    (devs : List Device) : List (String × String × QState × Pos3) :=
  devs.filterMap fun d =>
    if isAvailableRobot d then
      some (d.devId, d.ip, get_state issue_type d.position issue_coordinates, d.position)
    else none

/-- `smart_select_robot` of the source.  It enumerates the available
robots, truncates the list to `required_count`
(`available_robots[:required_count]`), and returns those entries.  The
per-robot ε test in the source only chooses between an EXPLORE and an
EXPLOIT log message; both branches append the same robot, so the
returned list depends neither on the random draw nor on the Q-table. -/
def smart_select_robot (issue_type : String) (issue_coordinates : Pos3)
    (required_count : Nat) (devs : List Device) : List (String × String × QState) :=
  let available_robots := availableRobotEntries issue_type issue_coordinates devs
  if available_robots = [] then []
  else (available_robots.take required_count).map fun e => (e.1, e.2.1, e.2.2.1)

/-- Insert `x` into a list sorted by `key` in descending order, after all
elements of greater-or-equal key (so earlier-inserted ties stay first). -/
def insertDescBy {α : Type} (key : α → ℚ) (x : α) : List α → List α
  | [] => [x]
  | y :: ys => if key y ≤ key x then x :: y :: ys else y :: insertDescBy key x ys

/-- Stable descending insertion sort by `key`. -/
def sortDescBy {α : Type} (key : α → ℚ) (l : List α) : List α :=
  l.foldr (insertDescBy key) []

/-- Modelled from the spec (§4.5, selection step 3): return the subset of
size `min (|A|, required_count)` of the available agents with the greatest
`Q[state][agent]` values, ties broken by insertion order.  This is the
exploitation selection the spec describes, stated for comparison with
`smart_select_robot`. -/
def spec_greedy_select (q : QTable) (issue_type : String) (issue_coordinates : Pos3)
    (required_count : Nat) (devs : List Device) : List (String × String × QState) :=
  let available := availableRobotEntries issue_type issue_coordinates devs
  ((sortDescBy (fun e => qGet q e.2.2.1 e.1) available).take required_count).map
    fun e => (e.1, e.2.1, e.2.2.1)

theorem availableRobotEntries_eq_filter (issue_type : String) (issue_coordinates : Pos3)
    (devs : List Device) :
    availableRobotEntries issue_type issue_coordinates devs =
      (devs.filter isAvailableRobot).map fun d =>
        (d.devId, d.ip, get_state issue_type d.position issue_coordinates, d.position) := by
  induction devs with
  | nil => rfl
  | cons d ds ih =>
    by_cases h : isAvailableRobot d <;>
      simp [availableRobotEntries, List.filterMap_cons, List.filter_cons, h] at ih ⊢ <;>
      exact ih

/-- First example robot for the selection counterexample. -/
def c1R1 : Device := ⟨"R1", "10.0.0.1", "robot", ⟨0, 0, 0⟩, none, none, "CONNECTED"⟩

/-- Second example robot for the selection counterexample. -/
def c1R2 : Device := ⟨"R2", "10.0.0.2", "robot", ⟨10, 0, 0⟩, none, none, "CONNECTED"⟩

/-- Example Q-table giving R2 a strictly greater Q-value than R1 in the
state both robots share for a rust issue at the origin. -/
def c1Q : QTable := qSet [] ("rust", "near") "R2" 5

/-- C1: counterexample.  With available robots R1 then R2 (both `near` a
rust issue at the origin) and `Q[(rust,near)][R2] = 5 > 0 = Q[(rust,near)][R1]`,
selecting one robot returns R1, the first available robot in insertion
order, while the greatest-Q subset the claim demands is {R2}; the ε test
in the source only picks a log message, so this holds on the exploitation
branch as on any other. -/
theorem c1_counterexample :
    (smart_select_robot "rust" ⟨0, 0, 0⟩ 1 [c1R1, c1R2]).map (fun e => e.1) = ["R1"] ∧
    (spec_greedy_select c1Q "rust" ⟨0, 0, 0⟩ 1 [c1R1, c1R2]).map (fun e => e.1) = ["R2"] ∧
    ("R1" : String) ≠ "R2" := by
  refine ⟨by decide, by decide, by decide⟩

/-- C1 (amended): the selection invoked by the dispatcher always returns
the first `min (|A|, required_count)` available robots in insertion
order; the Q-table plays no part in the choice (it does not even occur
in `smart_select_robot`), and exploration versus exploitation only
changes which message the source logs. -/
theorem c1_amended (t : String) (c : Pos3) (n : Nat) (devs : List Device) :
    (smart_select_robot t c n devs).map (fun e => e.1) =
      ((devs.filter isAvailableRobot).take n).map Device.devId := by
  unfold smart_select_robot
  rw [availableRobotEntries_eq_filter]
  by_cases h : (devs.filter isAvailableRobot).map
      (fun d => (d.devId, d.ip, get_state t d.position c, d.position)) = []
  · simp only [h, if_pos]
    rcases List.map_eq_nil_iff.mp h with h'
    simp [h']
  · simp only [h, if_neg, not_false_iff]
    simp only [List.map_take, List.map_map]
    rfl

theorem getAssoc_setAssoc_self {κ β : Type} [DecidableEq κ] (l : List (κ × β)) (k : κ) (v : β) :
    getAssoc (setAssoc l k v) k = some v := by
  induction l with
  | nil => simp [setAssoc, getAssoc]
  | cons p rest ih =>
    by_cases h : p.1 = k <;> simp [setAssoc, getAssoc, h, ih]

theorem getAssoc_setAssoc_ne {κ β : Type} [DecidableEq κ] (l : List (κ × β)) (k k' : κ) (v : β)
    (h : k' ≠ k) : getAssoc (setAssoc l k v) k' = getAssoc l k' := by
  induction l with
  | nil => simp [setAssoc, getAssoc, Ne.symm h]
  | cons p rest ih =>
    by_cases hp : p.1 = k
    · simp [setAssoc, getAssoc, hp, Ne.symm h]
    · simp [setAssoc, getAssoc, hp, ih]

theorem qGet_qSet_self (q : QTable) (s : QState) (a : String) (v : ℚ) :
    qGet (qSet q s a v) s a = v := by
  induction q with
  | nil => simp [qSet, qGet, getAssoc, getAssoc_setAssoc_self]
  | cons p rest ih =>
    by_cases h : p.1 = s
    · simp [qSet, qGet, getAssoc, h, getAssoc_setAssoc_self]
    · simpa [qSet, qGet, getAssoc, h] using ih

theorem qGet_qSet_ne (q : QTable) (s : QState) (a : String) (v : ℚ) (s' : QState) (a' : String)
    (h : s' ≠ s ∨ a' ≠ a) : qGet (qSet q s a v) s' a' = qGet q s' a' := by
  induction q with
  | nil =>
    rcases h with h | h
    · simp [qSet, qGet, getAssoc, Ne.symm h]
    · by_cases hs : s = s'
      · simp [qSet, qGet, getAssoc, hs, Ne.symm h]
      · simp [qSet, qGet, getAssoc, hs]
  | cons p rest ih =>
    by_cases hs : s' = s
    · have ha : a' ≠ a := h.resolve_left (fun hc => hc hs)
      by_cases hp : p.1 = s
      · subst hs
        simp [qSet, qGet, getAssoc, hp, getAssoc_setAssoc_ne _ _ _ _ ha]
      · subst hs
        simpa [qSet, qGet, getAssoc, hp] using ih
    · have hss' : s ≠ s' := fun hc => hs hc.symm
      by_cases hp : p.1 = s
      · simp [qSet, qGet, getAssoc, hp, hss']
      · by_cases hp' : p.1 = s'
        · simp [qSet, qGet, getAssoc, hp, hp', hs]
        · simpa [qSet, qGet, getAssoc, hp, hp'] using ih

/-- A sequence of Q-updates `(state, robot, reward)` applied in order, as
repeated completions would apply them. -/
def applyUpdates (q : QTable) (us : List (QState × String × ℚ)) : QTable :=
  us.foldl (fun acc u => update_q_table acc u.1 u.2.1 u.2.2) q

theorem update_q_table_pointwise (q1 q2 : QTable) (s : QState) (a : String) (r : ℚ)
    (h : ∀ s' a', qGet q1 s' a' = qGet q2 s' a') :
    ∀ s' a', qGet (update_q_table q1 s a r) s' a' = qGet (update_q_table q2 s a r) s' a' := by
  intro s' a'
  unfold update_q_table
  by_cases hs : s' = s ∧ a' = a
  · rcases hs with ⟨hs, ha⟩
    subst hs; subst ha
    rw [qGet_qSet_self, qGet_qSet_self, h]
  · rcases Decidable.not_and_iff_or_not.mp hs with h' | h'
    · rw [qGet_qSet_ne _ _ _ _ _ _ (Or.inl h'), qGet_qSet_ne _ _ _ _ _ _ (Or.inl h'), h]
    · rw [qGet_qSet_ne _ _ _ _ _ _ (Or.inr h'), qGet_qSet_ne _ _ _ _ _ _ (Or.inr h'), h]

/-- C7: the policy update at completion sets `Q[state][agent]` to
`Q[state][agent] + ALPHA * (reward − Q[state][agent])` with `ALPHA = 0.1`,
reads unseen keys as 0 (the empty table reads 0 everywhere), changes no
other entry, and is a pure function of the prior entry and the reward:
identical update sequences applied to pointwise-equal tables produce
pointwise-equal tables. -/
theorem c7_policy_update :
    ALPHA = 1/10 ∧
    (∀ s a, qGet [] s a = 0) ∧
    (∀ q s a r, qGet (update_q_table q s a r) s a = qGet q s a + ALPHA * (r - qGet q s a)) ∧
    (∀ q s a r s' a', s' ≠ s ∨ a' ≠ a →
        qGet (update_q_table q s a r) s' a' = qGet q s' a') ∧
    (∀ us q1 q2, (∀ s a, qGet q1 s a = qGet q2 s a) →
        ∀ s a, qGet (applyUpdates q1 us) s a = qGet (applyUpdates q2 us) s a) := by
  refine ⟨rfl, fun s a => rfl, ?_, ?_, ?_⟩
  · intro q s a r
    unfold update_q_table
    exact qGet_qSet_self q s a _
  · intro q s a r s' a' h
    unfold update_q_table
    exact qGet_qSet_ne q s a _ s' a' h
  · intro us
    induction us with
    | nil => intro q1 q2 h s a; exact h s a
    | cons u rest ih =>
      intro q1 q2 h s a
      exact ih _ _ (update_q_table_pointwise q1 q2 u.1 u.2.1 u.2.2 h) s a

/-- C7 witness: the update at `((rust, far), R1)` leaves the entry at the
other robot R2 unchanged. -/
theorem c7_policy_update_witness :
    qGet (update_q_table [] ("rust", "far") "R1" (-5)) ("rust", "far") "R2" =
      qGet ([] : QTable) ("rust", "far") "R2" :=
  c7_policy_update.2.2.2.1 [] ("rust", "far") "R1" (-5) ("rust", "far") "R2"
    (Or.inr (by decide))

/-- The deduplication key
`f"{issue_type}_{coordinates.get('x',0)}_{coordinates.get('y',0)}_{coordinates.get('z',0)}"`
of the source, modelled as the tuple of the kind and the three exact
coordinate values (the f-string renders the float values verbatim, with
no rounding). -/
abbrev IssueKey := String × ℚ × ℚ × ℚ

/-- Build the deduplication key of an issue from its kind and (defaulted)
coordinates. -/
def issueKey (issue_type : String) (c : Pos3) : IssueKey := (issue_type, c.x, c.y, c.z)

/-- A record of the `detected_issues` store. -/
structure IssueRec where
  issueType : String
  coords : Pos3
  droneId : String
deriving DecidableEq, Repr

/-- An entry of the `pending_issues` deque. -/
structure PendingItem where
  key : IssueKey
  issueType : String
  coords : Option Pos3
  robotCount : Nat
deriving DecidableEq, Repr

/-- A record of the `active_tasks` dict (`task_id → info`). -/
structure TaskInfo where
  robotId : String
  issueType : String
  qstate : QState
  assignedAt : ℚ
deriving DecidableEq, Repr

/-- An emitted `MOVEMENT_COMMAND` frame: `message_id`, target robot, and
the `content = {issue_type, coordinates, command="move_to_location"}`
payload (the coordinates field is the raw, possibly absent, dict). -/
structure MoveCmd where
  msgId : Nat
  robotId : String
  robotIp : String
  issueType : String
  coords : Option Pos3
deriving DecidableEq, Repr

/-- The mutable base-station state: the `devices` registry, a counter
generating fresh `message_id`s (timestamps in the source, opaque fresh
tokens here), the `detected_issues` store, the `pending_issues` queue,
the `active_tasks` table, and the Q-table. -/
structure BaseState where
  devices : List Device
  nextId : Nat
  store : List (IssueKey × IssueRec)
  pending : List PendingItem
  activeTasks : List (Nat × TaskInfo)
  q : QTable
deriving DecidableEq, Repr

/-- `ISSUE_LOCATIONS`: the known issue kinds with their predefined
coordinates and required robot counts. -/
def ISSUE_LOCATIONS : List (String × Pos3 × Nat) :=
  [("rust", (⟨65, 100, 10⟩, 1)),
   ("overheated_circuit", (⟨120, 150, 5⟩, 2)),
   ("tilted_antenna", (⟨200, 100, 20⟩, 1))]

/-- Lookup of a kind in `ISSUE_LOCATIONS` (`issue_type not in ISSUE_LOCATIONS`
is `none` here). -/
def issueLocationFor (t : String) : Option (Pos3 × Nat) := getAssoc ISSUE_LOCATIONS t

/-- The registry mutation inside `send_movement_command`: set `task_id`
and `current_task` on the first device matching
`dev_id == robot_id or dev.get("ip") == robot_ip`. -/
def assignTask (robot_id robot_ip : String) (msgId : Nat) (issue_type : String)
    (coords : Option Pos3) (now : ℚ) : List Device → List Device
  | [] => []
  | d :: ds =>
    if d.devId = robot_id ∨ d.ip = robot_ip then
      {d with taskId := some msgId, currentTask := some ⟨issue_type, coords, now⟩} :: ds
    else d :: assignTask robot_id robot_ip msgId issue_type coords now ds

/-- Result of one `send_movement_command` call. -/
structure SendResult where
  ok : Bool
  devices : List Device
  nextId : Nat
  cmds : List MoveCmd
deriving DecidableEq, Repr

/-- `send_movement_command` of the source: generate a fresh `message_id`,
try to connect to `robot_ip` (the `sendOk` oracle); on success emit the
`MOVEMENT_COMMAND` frame and mark the first matching device assigned; on
failure (timeout, refused) leave the registry untouched and emit
nothing. -/
def send_movement_command (sendOk : String → Bool) (now : ℚ) (robot_id robot_ip : String)
    (coords : Option Pos3) (issue_type : String) (devs : List Device) (nextId : Nat) :
    SendResult :=
  if sendOk robot_ip then
    ⟨true, assignTask robot_id robot_ip nextId issue_type coords now devs, nextId + 1,
      [⟨nextId, robot_id, robot_ip, issue_type, coords⟩]⟩
  else ⟨false, devs, nextId + 1, []⟩

/-- `find_available_robots` of the source: walk the registry in insertion
order collecting available robots, and break as soon as the requested
count is reached. -/
def find_available_robots (count : Nat) : List Device → List (String × String)
  | [] => []
  | d :: ds =>
    if isAvailableRobot d then
      if count ≤ 1 then [(d.devId, d.ip)]
      else (d.devId, d.ip) :: find_available_robots (count - 1) ds
    else find_available_robots count ds

/-- Result of the dispatch loop inside `process_issue_queue`. -/
structure BatchResult where
  devices : List Device
  nextId : Nat
  cmds : List MoveCmd
  allOk : Bool
deriving DecidableEq, Repr

/-- The inner loop of `process_issue_queue`: send a movement command to
each robot in turn and break on the first failure.  Note that this path
never records an `active_tasks` entry. -/
def queueDispatchBatch (sendOk : String → Bool) (now : ℚ) (issue_type : String)
    (coords : Option Pos3) : List (String × String) → List Device → Nat → BatchResult
  | [], devs, nid => ⟨devs, nid, [], true⟩
  | (rid, rip) :: rest, devs, nid =>
    let s := send_movement_command sendOk now rid rip coords issue_type devs nid
    if s.ok then
      let b := queueDispatchBatch sendOk now issue_type coords rest s.devices s.nextId
      ⟨b.devices, b.nextId, s.cmds ++ b.cmds, b.allOk⟩
    else ⟨s.devices, s.nextId, s.cmds, false⟩

/-- Result of a queue drain. -/
structure DrainResult where
  pending : List PendingItem
  devices : List Device
  nextId : Nat
  cmds : List MoveCmd
deriving DecidableEq, Repr

/-- The `while True` loop of `process_issue_queue`: peek the head of the
pending queue; if it cannot be fully staffed, return; otherwise dispatch
its batch, pop it only when every send succeeded, and continue with the
next entry; on a partial batch, stop (the source comments: stop
processing to avoid skipping order). -/
def queueDrainGo (sendOk : String → Bool) (now : ℚ) :
    List PendingItem → List Device → Nat → DrainResult
  | [], devs, nid => ⟨[], devs, nid, []⟩
  | item :: rest, devs, nid =>
    let available := find_available_robots item.robotCount devs
    if available.length < item.robotCount then ⟨item :: rest, devs, nid, []⟩
    else
      let b := queueDispatchBatch sendOk now item.issueType item.coords
        (available.take item.robotCount) devs nid
      if b.allOk then
        let r := queueDrainGo sendOk now rest b.devices b.nextId
        ⟨r.pending, r.devices, r.nextId, b.cmds ++ r.cmds⟩
      else ⟨item :: rest, b.devices, b.nextId, b.cmds⟩

/-- `process_issue_queue` on the whole state.  The drain reads and writes
the registry and the pending queue only: in particular it never touches
`active_tasks`, the issue store, or the Q-table. -/
def process_issue_queue (sendOk : String → Bool) (now : ℚ) (st : BaseState) :
    BaseState × List MoveCmd :=
  let r := queueDrainGo sendOk now st.pending st.devices st.nextId
  ({st with pending := r.pending, devices := r.devices, nextId := r.nextId}, r.cmds)

/-- `enqueue_issue`: append to the pending queue unless an entry with the
same issue key is already queued. -/
def enqueue_issue (st : BaseState) (key : IssueKey) (issue_type : String)
    (coords : Option Pos3) (robot_count : Nat) : BaseState :=
  if st.pending.any (fun item => decide (item.key = key)) then st
  else {st with pending := st.pending ++ [⟨key, issue_type, coords, robot_count⟩]}

/-- The dispatch loop of `handle_issue_detection`: send a movement
command to every selected robot; on success record the task in
`active_tasks` for reward attribution; on failure log and continue with
the remaining robots (no break, no retry). -/
def assignLoop (sendOk : String → Bool) (now : ℚ) (issue_type : String)
    (coords : Option Pos3) : List (String × String × QState) → BaseState →
    BaseState × List MoveCmd
  | [], st => (st, [])
  | (rid, rip, qs) :: rest, st =>
    let s := send_movement_command sendOk now rid rip coords issue_type st.devices st.nextId
    let st' :=
      if s.ok then
        {st with
          devices := s.devices
          nextId := s.nextId
          activeTasks := st.activeTasks ++ [(st.nextId, ⟨rid, issue_type, qs, now⟩)]}
      else {st with devices := s.devices, nextId := s.nextId}
    let r := assignLoop sendOk now issue_type coords rest st'
    (r.1, s.cmds ++ r.2)

/-- `handle_issue_detection` of the source: reject unknown kinds; select
robots via `smart_select_robot` on the drone coordinates (missing
coordinates default each component to 0 through `.get(...,0)`); if too
few are available enqueue and return `False`; otherwise dispatch every
selected robot and return `True`. -/
def handle_issue_detection (sendOk : String → Bool) (now : ℚ) (st : BaseState)
    (issue_type : String) (coords : Option Pos3) : Bool × BaseState × List MoveCmd :=
  match issueLocationFor issue_type with
  | none => (false, st, [])
  | some info =>
    let robot_count := info.2
    let c := coords.getD ⟨0, 0, 0⟩
    let key := issueKey issue_type c
    let selected := smart_select_robot issue_type c robot_count st.devices
    if selected.length < robot_count then
      (false, enqueue_issue st key issue_type coords robot_count, [])
    else
      let r := assignLoop sendOk now issue_type coords selected st
      (true, r.1, r.2)

/-- The issue-store admission step of the `QR_SCAN` branch: when both
`issue_type` and `coordinates` are present (truthy), store the issue
unless its key is already live; otherwise print the missing-field error
and store nothing. -/
def storeScan (st : BaseState) (sender_id : String) :
    Option String → Option Pos3 → BaseState
  | some t, some c =>
    if (getAssoc st.store (issueKey t c)).isSome then st
    else {st with store := st.store ++ [(issueKey t c, ⟨t, c, sender_id⟩)]}
  | some _, none => st
  | none, _ => st

/-- The `QR_SCAN` branch of `handle_tcp_client`: run the admission step,
then, whenever `issue_type` alone is present, call
`handle_issue_detection` — also for duplicates and also when the
coordinates are missing. -/
def handle_qr_scan (sendOk : String → Bool) (now : ℚ) (st : BaseState) (sender_id : String)
    (issue_type : Option String) (coords : Option Pos3) : BaseState × List MoveCmd :=
  match issue_type with
  | some t =>
    ((handle_issue_detection sendOk now (storeScan st sender_id issue_type coords) t
        coords).2.1,
     (handle_issue_detection sendOk now (storeScan st sender_id issue_type coords) t
        coords).2.2)
  | none => (storeScan st sender_id issue_type coords, [])

/-- The device loop of the `TASK_COMPLETED` branch: release the first
device matching `dev_id == sender_id or dev.get("ip") == client_ip`
(clear `task_id` and `current_task`, set status READY); `none` when no
device matches. -/
def releaseFirst (sender_id client_ip : String) : List Device → Option (List Device)
  | [] => none
  | d :: ds =>
    if d.devId = sender_id ∨ d.ip = client_ip then
      some ({d with taskId := none, currentTask := none, status := "READY"} :: ds)
    else (releaseFirst sender_id client_ip ds).map (d :: ·)

/-- The `TASK_COMPLETED` branch of `handle_tcp_client`: resolve the
sender to a device (else mutate nothing); release it regardless of the
frame's `status` value; if the carried `task_id` is an active task,
update the Q-table with reward `-(now - assigned_at)` and delete the
entry; remove the issue derived from the frame's kind and coordinates
from the store; finally drain the pending queue. -/
def handle_task_completed (sendOk : String → Bool) (now : ℚ) (st : BaseState)
    (sender_id client_ip : String) (task_id : Nat) (issue_type : Option String)
    (coords : Option Pos3) (statusVal : String) : BaseState × List MoveCmd :=
  match releaseFirst sender_id client_ip st.devices with
  | none => (st, [])
  | some devs =>
    let st1 := {st with devices := devs}
    let st2 :=
      match getAssoc st1.activeTasks task_id with
      | some info =>
        {st1 with
          q := update_q_table st1.q info.qstate info.robotId (-(now - info.assignedAt))
          activeTasks := removeAssoc st1.activeTasks task_id}
      | none => st1
    let st3 :=
      match issue_type, coords with
      | some t, some c => {st2 with store := removeAssoc st2.store (issueKey t c)}
      | _, _ => st2
    process_issue_queue sendOk now st3

/-- An inbound TCP frame, after JSON decoding, restricted to the fields
the handlers read. -/
inductive Frame where
  | qrScan (sender_id : String) (issue_type : Option String) (coords : Option Pos3)
  | taskCompleted (sender_id client_ip : String) (task_id : Nat)
      (issue_type : Option String) (coords : Option Pos3) (statusVal : String)
  | other
deriving DecidableEq, Repr

/-- Dispatch of one decoded frame in `handle_tcp_client`. -/
def processFrame (sendOk : String → Bool) (now : ℚ) (st : BaseState) :
    Frame → BaseState × List MoveCmd
  | .qrScan sid t c => handle_qr_scan sendOk now st sid t c
  | .taskCompleted sid ip tid t c sv => handle_task_completed sendOk now st sid ip tid t c sv
  | .other => (st, [])

/-- The per-connection read loop of `handle_tcp_client`: frames on one
stream are processed in order, each against the state the previous ones
left (frame-level errors affect only their own frame). -/
def processFrames (sendOk : String → Bool) (now : ℚ) (st : BaseState) :
    List Frame → BaseState × List MoveCmd
  | [] => (st, [])
  | f :: rest =>
    let r := processFrame sendOk now st f
    let r2 := processFrames sendOk now r.1 rest
    (r2.1, r.2 ++ r2.2)

/-- Example available robot for the queue-drain task-table violation. -/
def c2Robot : Device := ⟨"R1", "10.0.0.1", "robot", ⟨0, 0, 0⟩, none, none, "CONNECTED"⟩

/-- Example queued rust issue for the queue-drain task-table violation. -/
def c2Item : PendingItem := ⟨issueKey "rust" ⟨65, 100, 10⟩, "rust", some ⟨65, 100, 10⟩, 1⟩

/-- Example state whose pending queue holds one rust issue and whose
registry holds one available robot, with an empty active-task table. -/
def c2State : BaseState :=
  ⟨[c2Robot], 0, [(c2Item.key, ⟨"rust", ⟨65, 100, 10⟩, "D1"⟩)], [c2Item], [], []⟩

/-- C2: failing input for the claimed invariant.  Draining the queue with
one available robot dispatches the queued rust issue: the robot's
assignment slot becomes non-null and a movement command is emitted, yet
the active-task table stays empty — an assigned agent with no task entry,
because `process_issue_queue` never records `active_tasks`. -/
theorem c2_failing_input :
    ((process_issue_queue (fun _ => true) 0 c2State).1.devices.map Device.taskId
        = [some 0]) ∧
    (process_issue_queue (fun _ => true) 0 c2State).1.activeTasks = [] ∧
    (process_issue_queue (fun _ => true) 0 c2State).1.pending = [] ∧
    (process_issue_queue (fun _ => true) 0 c2State).2.length = 1 := by
  refine ⟨by decide, by decide, by decide, by decide⟩

/-- First example robot for the duplicate-dispatch bug. -/
def c3R1 : Device := ⟨"R1", "10.0.0.1", "robot", ⟨0, 0, 0⟩, none, none, "CONNECTED"⟩

/-- Second example robot for the duplicate-dispatch bug. -/
def c3R2 : Device := ⟨"R2", "10.0.0.2", "robot", ⟨5, 0, 0⟩, none, none, "CONNECTED"⟩

/-- Initial state for the duplicate-dispatch bug: two available robots,
empty store and queue. -/
def c3St0 : BaseState := ⟨[c3R1, c3R2], 0, [], [], [], []⟩

/-- The twice-received QR_SCAN frame: rust at (65, 100, 10). -/
def c3Frame : Frame := .qrScan "D1" (some "rust") (some ⟨65, 100, 10⟩)

/-- State after the first of the two identical QR_SCAN frames. -/
def c3St1 : BaseState := (processFrame (fun _ => true) 0 c3St0 c3Frame).1

/-- C3: failing input.  Processing the identical QR_SCAN frame a second
time leaves the issue store unchanged (the duplicate is not admitted),
but processing does not return: the dispatcher runs again and emits a
second MOVEMENT_COMMAND, assigning the second robot to the same issue. -/
theorem c3_failing_input :
    (processFrame (fun _ => true) 1 c3St1 c3Frame).1.store = c3St1.store ∧
    (processFrame (fun _ => true) 1 c3St1 c3Frame).2.length = 1 ∧
    ((processFrame (fun _ => true) 1 c3St1 c3Frame).1.devices.map Device.taskId
      = [some 0, some 1]) := by
  refine ⟨by decide, by decide, by decide⟩

/-- Example available robot for the missing-coordinates bug. -/
def c9Robot : Device := ⟨"R1", "10.0.0.1", "robot", ⟨0, 0, 0⟩, none, none, "CONNECTED"⟩

/-- Initial state for the missing-coordinates bug. -/
def c9St0 : BaseState := ⟨[c9Robot], 0, [], [], [], []⟩

/-- A QR_SCAN frame carrying an issue_type but no coordinates. -/
def c9Frame : Frame := .qrScan "D1" (some "rust") none

/-- C9: failing input.  A QR_SCAN frame with `issue_type = "rust"` but no
coordinates is not stored (that part is an error as claimed), yet the
handler still dispatches: a MOVEMENT_COMMAND with the empty coordinates
payload is emitted and the robot is assigned, contradicting the claim
that such a frame causes no dispatch of any agent. -/
theorem c9_failing_input :
    (processFrame (fun _ => true) 0 c9St0 c9Frame).1.store = [] ∧
    (processFrame (fun _ => true) 0 c9St0 c9Frame).2
      = [⟨0, "R1", "10.0.0.1", "rust", none⟩] ∧
    ((processFrame (fun _ => true) 0 c9St0 c9Frame).1.devices.map Device.taskId
      = [some 0]) := by
  refine ⟨by decide, by decide, by decide⟩

/-- A filesystem operation performed by the persistence code. -/
inductive FsOp where
  | writeFile (path : String) (table : QTable)
  | rename (src dst : String)
deriving DecidableEq, Repr

/-- `Q_TABLE_FILE = "q_table.pkl"`. -/
def Q_TABLE_FILE : String := "q_table.pkl"

/-- Filesystem trace of `save_q_table` in the source: it opens
`q_table.pkl` itself with `open(Q_TABLE_FILE, 'wb')` and pickles the
table straight into it. -/
def save_q_table (q : QTable) : List FsOp := [FsOp.writeFile Q_TABLE_FILE q]

/-- Modelled from the spec (§4.5 persistence and §6 persisted state): an
atomic-replace snapshot first writes the complete table to a temporary
file and then renames that file over the snapshot file. -/
def isAtomicReplace (ops : List FsOp) (target : String) : Prop :=
  ∃ tmp q, tmp ≠ target ∧ ops = [FsOp.writeFile tmp q, FsOp.rename tmp target]

/-- C6: counterexample.  The trace of `save_q_table` is not an atomic
replace: it is a single direct write to the snapshot file, with no
temporary file and no rename, so a crash mid-write leaves a partial
snapshot in place. -/
theorem c6_counterexample : ¬ isAtomicReplace (save_q_table []) Q_TABLE_FILE := by
  rintro ⟨tmp, q, -, h⟩
  simp [save_q_table] at h

/-- C6 (amended): every snapshot of the Q-table is a single direct write
of the serialized table to the snapshot file `q_table.pkl`; no temporary
file is created and no rename is performed. -/
theorem c6_amended (q : QTable) :
    save_q_table q = [FsOp.writeFile Q_TABLE_FILE q] ∧
    ∀ src dst, FsOp.rename src dst ∉ save_q_table q := by
  refine ⟨rfl, ?_⟩
  intro src dst h
  simp [save_q_table] at h

/-- The (kind, raw coordinates) identity of a pending entry; distinct
queued entries have distinct identities because `enqueue_issue`
deduplicates on the issue key derived from them. -/
def pendingPair (e : PendingItem) : String × Option Pos3 := (e.issueType, e.coords)

/-- The (kind, raw coordinates) identity a movement command carries in
its content payload. -/
def cmdPair (c : MoveCmd) : String × Option Pos3 := (c.issueType, c.coords)

/-- How many of the emitted commands belong to a given pending entry. -/
def cmdCount (e : PendingItem) (cmds : List MoveCmd) : Nat :=
  cmds.countP (fun c => decide (cmdPair c = pendingPair e))

theorem cmdCount_append (e : PendingItem) (l m : List MoveCmd) :
    cmdCount e (l ++ m) = cmdCount e l + cmdCount e m :=
  List.countP_append _ _ _

theorem cmdCount_all (e : PendingItem) (l : List MoveCmd)
    (h : ∀ c ∈ l, cmdPair c = pendingPair e) : cmdCount e l = l.length := by
  apply List.countP_eq_length.mpr
  intro c hc
  simpa using h c hc

theorem cmdCount_none (e : PendingItem) (l : List MoveCmd)
    (h : ∀ c ∈ l, cmdPair c ≠ pendingPair e) : cmdCount e l = 0 := by
  apply List.countP_eq_zero.mpr
  intro c hc
  simpa using h c hc

theorem queueDispatchBatch_spec (sendOk : String → Bool) (now : ℚ) (t : String)
    (c : Option Pos3) (robots : List (String × String)) (devs : List Device) (nid : Nat) :
    (∀ cmd ∈ (queueDispatchBatch sendOk now t c robots devs nid).cmds,
      cmd.issueType = t ∧ cmd.coords = c) ∧
    ((queueDispatchBatch sendOk now t c robots devs nid).allOk = true →
      (queueDispatchBatch sendOk now t c robots devs nid).cmds.length = robots.length) := by
  induction robots generalizing devs nid with
  | nil => simp [queueDispatchBatch]
  | cons r rest ih =>
    obtain ⟨rid, rip⟩ := r
    by_cases hok : sendOk rip
    · have heq : queueDispatchBatch sendOk now t c ((rid, rip) :: rest) devs nid =
        ⟨(queueDispatchBatch sendOk now t c rest
            (assignTask rid rip nid t c now devs) (nid + 1)).devices,
          (queueDispatchBatch sendOk now t c rest
            (assignTask rid rip nid t c now devs) (nid + 1)).nextId,
          ⟨nid, rid, rip, t, c⟩ :: (queueDispatchBatch sendOk now t c rest
            (assignTask rid rip nid t c now devs) (nid + 1)).cmds,
          (queueDispatchBatch sendOk now t c rest
            (assignTask rid rip nid t c now devs) (nid + 1)).allOk⟩ := by
        simp [queueDispatchBatch, send_movement_command, hok]
      rw [heq]
      obtain ⟨ih1, ih2⟩ := ih (assignTask rid rip nid t c now devs) (nid + 1)
      constructor
      · intro cmd hcmd
        rcases List.mem_cons.mp hcmd with h | h
        · subst h; exact ⟨rfl, rfl⟩
        · exact ih1 cmd h
      · intro hall
        simp only [List.length_cons]
        rw [ih2 hall]
    · have heq : queueDispatchBatch sendOk now t c ((rid, rip) :: rest) devs nid =
        ⟨devs, nid + 1, [], false⟩ := by
        simp [queueDispatchBatch, send_movement_command, hok]
      rw [heq]
      simp

theorem queueDrainGo_cons_understaffed (sendOk : String → Bool) (now : ℚ)
    (item : PendingItem) (rest : List PendingItem) (devs : List Device) (nid : Nat)
    (h : (find_available_robots item.robotCount devs).length < item.robotCount) :
    queueDrainGo sendOk now (item :: rest) devs nid = ⟨item :: rest, devs, nid, []⟩ := by
  simp [queueDrainGo, h]

theorem queueDrainGo_cons_ok (sendOk : String → Bool) (now : ℚ)
    (item : PendingItem) (rest : List PendingItem) (devs : List Device) (nid : Nat)
    (h : ¬ (find_available_robots item.robotCount devs).length < item.robotCount)
    (hok : (queueDispatchBatch sendOk now item.issueType item.coords
      ((find_available_robots item.robotCount devs).take item.robotCount) devs nid).allOk
        = true) :
    queueDrainGo sendOk now (item :: rest) devs nid =
      ⟨(queueDrainGo sendOk now rest
          (queueDispatchBatch sendOk now item.issueType item.coords
            ((find_available_robots item.robotCount devs).take item.robotCount) devs
            nid).devices
          (queueDispatchBatch sendOk now item.issueType item.coords
            ((find_available_robots item.robotCount devs).take item.robotCount) devs
            nid).nextId).pending,
        (queueDrainGo sendOk now rest
          (queueDispatchBatch sendOk now item.issueType item.coords
            ((find_available_robots item.robotCount devs).take item.robotCount) devs
            nid).devices
          (queueDispatchBatch sendOk now item.issueType item.coords
            ((find_available_robots item.robotCount devs).take item.robotCount) devs
            nid).nextId).devices,
        (queueDrainGo sendOk now rest
          (queueDispatchBatch sendOk now item.issueType item.coords
            ((find_available_robots item.robotCount devs).take item.robotCount) devs
            nid).devices
          (queueDispatchBatch sendOk now item.issueType item.coords
            ((find_available_robots item.robotCount devs).take item.robotCount) devs
            nid).nextId).nextId,
        (queueDispatchBatch sendOk now item.issueType item.coords
          ((find_available_robots item.robotCount devs).take item.robotCount) devs
          nid).cmds ++
        (queueDrainGo sendOk now rest
          (queueDispatchBatch sendOk now item.issueType item.coords
            ((find_available_robots item.robotCount devs).take item.robotCount) devs
            nid).devices
          (queueDispatchBatch sendOk now item.issueType item.coords
            ((find_available_robots item.robotCount devs).take item.robotCount) devs
            nid).nextId).cmds⟩ := by
  simp [queueDrainGo, h, hok]

theorem queueDrainGo_cons_fail (sendOk : String → Bool) (now : ℚ)
    (item : PendingItem) (rest : List PendingItem) (devs : List Device) (nid : Nat)
    (h : ¬ (find_available_robots item.robotCount devs).length < item.robotCount)
    (hok : ¬ (queueDispatchBatch sendOk now item.issueType item.coords
      ((find_available_robots item.robotCount devs).take item.robotCount) devs nid).allOk
        = true) :
    queueDrainGo sendOk now (item :: rest) devs nid =
      ⟨item :: rest,
        (queueDispatchBatch sendOk now item.issueType item.coords
          ((find_available_robots item.robotCount devs).take item.robotCount) devs
          nid).devices,
        (queueDispatchBatch sendOk now item.issueType item.coords
          ((find_available_robots item.robotCount devs).take item.robotCount) devs
          nid).nextId,
        (queueDispatchBatch sendOk now item.issueType item.coords
          ((find_available_robots item.robotCount devs).take item.robotCount) devs
          nid).cmds⟩ := by
  simp [queueDrainGo, h, hok]

/-- C5: the queue drain honors head-of-line order.  For any state whose
queued entries have pairwise-distinct identities (as `enqueue_issue`
guarantees): the final queue is a suffix of the initial one (entries are
only popped from the front, never skipped); if the head entry needs k
robots and fewer than k are available the drain stops at once, changing
nothing and emitting no command; an entry leaves the queue only with
exactly its required number of movement commands emitted (all sends
succeeded); entries still queued behind the new head received no command
at all; and every emitted command belongs to some initially queued
entry. -/
theorem c5_queue_drain (sendOk : String → Bool) (now : ℚ) (p : List PendingItem)
    (devs : List Device) (nid : Nat)
    (hkeys : (p.map pendingPair).Nodup) :
    (queueDrainGo sendOk now p devs nid).pending <:+ p ∧
    (∀ item rest, p = item :: rest →
      (find_available_robots item.robotCount devs).length < item.robotCount →
      queueDrainGo sendOk now p devs nid = ⟨p, devs, nid, []⟩) ∧
    (∀ e ∈ p, e ∉ (queueDrainGo sendOk now p devs nid).pending →
      cmdCount e (queueDrainGo sendOk now p devs nid).cmds = e.robotCount) ∧
    (∀ e ∈ (queueDrainGo sendOk now p devs nid).pending.tail,
      cmdCount e (queueDrainGo sendOk now p devs nid).cmds = 0) ∧
    (∀ cmd ∈ (queueDrainGo sendOk now p devs nid).cmds,
      cmdPair cmd ∈ p.map pendingPair) := by
  induction p generalizing devs nid with
  | nil =>
    refine ⟨?_, ?_, ?_, ?_, ?_⟩
    · simp [queueDrainGo]
    · intro item rest h; cases h
    · intro e he; cases he
    · intro e he; simp [queueDrainGo] at he
    · intro cmd hc; simp [queueDrainGo] at hc
  | cons item rest ih =>
    have hnotin : pendingPair item ∉ rest.map pendingPair :=
      (List.nodup_cons.mp (by simpa using hkeys)).1
    have hkeys' : (rest.map pendingPair).Nodup :=
      (List.nodup_cons.mp (by simpa using hkeys)).2
    by_cases hlt : (find_available_robots item.robotCount devs).length < item.robotCount
    · rw [queueDrainGo_cons_understaffed sendOk now item rest devs nid hlt]
      refine ⟨List.suffix_refl _, ?_, ?_, ?_, ?_⟩
      · intro item' rest' heq hlt'
        cases heq
        rfl
      · intro e he hne
        exact absurd he hne
      · intro e he
        have hmem : e ∈ rest := he
        exact cmdCount_none e [] (by intro c hc; cases hc)
      · intro cmd hc
        cases hc
    · by_cases hok : (queueDispatchBatch sendOk now item.issueType item.coords
        ((find_available_robots item.robotCount devs).take item.robotCount) devs nid).allOk
          = true
      · rw [queueDrainGo_cons_ok sendOk now item rest devs nid hlt hok]
        obtain ⟨hbc, hbl⟩ := queueDispatchBatch_spec sendOk now item.issueType item.coords
          ((find_available_robots item.robotCount devs).take item.robotCount) devs nid
        have hbpair : ∀ cmd ∈ (queueDispatchBatch sendOk now item.issueType item.coords
            ((find_available_robots item.robotCount devs).take item.robotCount) devs
            nid).cmds, cmdPair cmd = pendingPair item := by
          intro cmd hc
          obtain ⟨h1, h2⟩ := hbc cmd hc
          simp [cmdPair, pendingPair, h1, h2]
        have hblen : (queueDispatchBatch sendOk now item.issueType item.coords
            ((find_available_robots item.robotCount devs).take item.robotCount) devs
            nid).cmds.length = item.robotCount := by
          rw [hbl hok, List.length_take]
          exact Nat.min_eq_left (Nat.le_of_not_lt hlt)
        obtain ⟨ihA, ihB, ihC, ihD, ihE⟩ := ih
          (queueDispatchBatch sendOk now item.issueType item.coords
            ((find_available_robots item.robotCount devs).take item.robotCount) devs
            nid).devices
          (queueDispatchBatch sendOk now item.issueType item.coords
            ((find_available_robots item.robotCount devs).take item.robotCount) devs
            nid).nextId hkeys'
        refine ⟨?_, ?_, ?_, ?_, ?_⟩
        · exact ihA.trans (List.suffix_cons item rest)
        · intro item' rest' heq hlt'
          cases heq
          exact absurd hlt' hlt
        · intro e he hne
          rcases List.mem_cons.mp he with heq | hmem
          · -- e is the head entry: the batch gives exactly robotCount
            -- commands and the recursive drain none
            subst heq
            have h0 : cmdCount e (queueDrainGo sendOk now rest
                (queueDispatchBatch sendOk now e.issueType e.coords
                  ((find_available_robots e.robotCount devs).take e.robotCount) devs
                  nid).devices
                (queueDispatchBatch sendOk now e.issueType e.coords
                  ((find_available_robots e.robotCount devs).take e.robotCount) devs
                  nid).nextId).cmds = 0 :=
              cmdCount_none _ _ (fun c hc hpair => hnotin (hpair ▸ ihE c hc))
            rw [cmdCount_append, cmdCount_all _ _ hbpair, hblen, h0, Nat.add_zero]
          · have hne' : e ∉ (queueDrainGo sendOk now rest
                (queueDispatchBatch sendOk now item.issueType item.coords
                  ((find_available_robots item.robotCount devs).take item.robotCount) devs
                  nid).devices
                (queueDispatchBatch sendOk now item.issueType item.coords
                  ((find_available_robots item.robotCount devs).take item.robotCount) devs
                  nid).nextId).pending := hne
            have hpe : pendingPair e ≠ pendingPair item := by
              intro hpe
              exact hnotin (hpe ▸ List.mem_map_of_mem pendingPair hmem)
            have h0 : cmdCount e (queueDispatchBatch sendOk now item.issueType item.coords
                ((find_available_robots item.robotCount devs).take item.robotCount) devs
                nid).cmds = 0 :=
              cmdCount_none _ _ (fun c hc h => hpe (by rw [← h]; exact hbpair c hc))
            rw [cmdCount_append, h0, Nat.zero_add]
            exact ihC e hmem hne'
        · intro e he
          have hmem : e ∈ rest := ihA.subset (List.mem_of_mem_tail he)
          have hpe : pendingPair e ≠ pendingPair item := by
            intro hpe
            exact hnotin (hpe ▸ List.mem_map_of_mem pendingPair hmem)
          have h0 : cmdCount e (queueDispatchBatch sendOk now item.issueType item.coords
              ((find_available_robots item.robotCount devs).take item.robotCount) devs
              nid).cmds = 0 :=
            cmdCount_none _ _ (fun c hc h => hpe (by rw [← h]; exact hbpair c hc))
          rw [cmdCount_append, h0, Nat.zero_add]
          exact ihD e he
        · intro cmd hc
          rcases List.mem_append.mp hc with hmem | hmem
          · rw [List.map_cons]
            exact (hbpair cmd hmem) ▸ List.mem_cons_self _ _
          · rw [List.map_cons]
            exact List.mem_cons_of_mem _ (ihE cmd hmem)
      · rw [queueDrainGo_cons_fail sendOk now item rest devs nid hlt hok]
        obtain ⟨hbc, _⟩ := queueDispatchBatch_spec sendOk now item.issueType item.coords
          ((find_available_robots item.robotCount devs).take item.robotCount) devs nid
        have hbpair : ∀ cmd ∈ (queueDispatchBatch sendOk now item.issueType item.coords
            ((find_available_robots item.robotCount devs).take item.robotCount) devs
            nid).cmds, cmdPair cmd = pendingPair item := by
          intro cmd hc
          obtain ⟨h1, h2⟩ := hbc cmd hc
          simp [cmdPair, pendingPair, h1, h2]
        refine ⟨List.suffix_refl _, ?_, ?_, ?_, ?_⟩
        · intro item' rest' heq hlt'
          cases heq
          exact absurd hlt' hlt
        · intro e he hne
          exact absurd he hne
        · intro e he
          have hpe : pendingPair e ≠ pendingPair item := by
            intro hpe
            exact hnotin (hpe ▸ List.mem_map_of_mem pendingPair he)
          exact cmdCount_none _ _ (fun c hc h => hpe (by rw [← h]; exact hbpair c hc))
        · intro cmd hc
          rw [List.map_cons]
          exact (hbpair cmd hc) ▸ List.mem_cons_self _ _

/-- Example robot for the drain witness. -/
def c5Dev : Device := ⟨"R1", "10.0.0.1", "robot", ⟨0, 0, 0⟩, none, none, "CONNECTED"⟩

/-- First queued entry for the drain witness. -/
def c5ItemA : PendingItem := ⟨issueKey "rust" ⟨65, 100, 10⟩, "rust", some ⟨65, 100, 10⟩, 1⟩

/-- Second queued entry for the drain witness. -/
def c5ItemB : PendingItem :=
  ⟨issueKey "tilted_antenna" ⟨200, 100, 20⟩, "tilted_antenna", some ⟨200, 100, 20⟩, 1⟩

/-- C5 witness: draining a two-entry queue with a single available robot
dispatches exactly the head entry's one command. -/
theorem c5_queue_drain_witness :
    cmdCount c5ItemA (queueDrainGo (fun _ => true) 0 [c5ItemA, c5ItemB] [c5Dev] 0).cmds =
      c5ItemA.robotCount :=
  (c5_queue_drain (fun _ => true) 0 [c5ItemA, c5ItemB] [c5Dev] 0 (by decide)).2.2.1 c5ItemA
    (by decide) (by decide)

theorem getAssoc_append_some {κ β : Type} [DecidableEq κ] (l m : List (κ × β)) (k : κ) (v : β)
    (h : getAssoc l k = some v) : getAssoc (l ++ m) k = some v := by
  induction l with
  | nil => cases h
  | cons p rest ih =>
    rw [List.cons_append]
    by_cases hp : p.1 = k
    · simp only [getAssoc, hp, if_pos] at h ⊢
      exact h
    · simp only [getAssoc, hp, if_neg, not_false_iff] at h ⊢
      exact ih h

theorem getAssoc_eq_none {κ β : Type} [DecidableEq κ] (l : List (κ × β)) (k : κ)
    (h : k ∉ l.map Prod.fst) : getAssoc l k = none := by
  induction l with
  | nil => rfl
  | cons p rest ih =>
    simp only [List.map_cons, List.mem_cons] at h
    push_neg at h
    have hp : p.1 ≠ k := fun hc => h.1 hc.symm
    simp [getAssoc, hp, ih h.2]

theorem getAssoc_removeAssoc_self {κ β : Type} [DecidableEq κ] (l : List (κ × β)) (k : κ)
    (h : (l.map Prod.fst).Nodup) : getAssoc (removeAssoc l k) k = none := by
  induction l with
  | nil => rfl
  | cons p rest ih =>
    simp only [List.map_cons, List.nodup_cons] at h
    by_cases hp : p.1 = k
    · have hrm : removeAssoc (p :: rest) k = rest := by simp [removeAssoc, hp]
      rw [hrm]
      exact getAssoc_eq_none rest k (hp ▸ h.1)
    · simp [removeAssoc, getAssoc, hp, ih h.2]

theorem assignLoop_frame (sendOk : String → Bool) (now : ℚ) (t : String) (c : Option Pos3)
    (robots : List (String × String × QState)) (st : BaseState) :
    (assignLoop sendOk now t c robots st).1.store = st.store ∧
    (assignLoop sendOk now t c robots st).1.pending = st.pending ∧
    (assignLoop sendOk now t c robots st).1.q = st.q := by
  induction robots generalizing st with
  | nil => exact ⟨rfl, rfl, rfl⟩
  | cons r rest ih =>
    obtain ⟨rid, rip, qs⟩ := r
    by_cases h : sendOk rip = true
    · simp only [assignLoop, send_movement_command, h, if_pos]
      exact ih _
    · simp only [assignLoop, send_movement_command, h, if_neg, not_false_iff, Bool.false_eq_true]
      exact ih _

theorem enqueue_issue_frame (st : BaseState) (key : IssueKey) (t : String) (c : Option Pos3)
    (n : Nat) :
    (enqueue_issue st key t c n).store = st.store ∧
    (enqueue_issue st key t c n).q = st.q := by
  unfold enqueue_issue
  split <;> exact ⟨rfl, rfl⟩

theorem handle_issue_detection_frame (sendOk : String → Bool) (now : ℚ) (st : BaseState)
    (t : String) (c : Option Pos3) :
    (handle_issue_detection sendOk now st t c).2.1.store = st.store ∧
    (handle_issue_detection sendOk now st t c).2.1.q = st.q := by
  rcases hloc : issueLocationFor t with _ | info
  · simp [handle_issue_detection, hloc]
  · simp only [handle_issue_detection, hloc]
    split
    · exact enqueue_issue_frame st _ t c info.2
    · exact ⟨(assignLoop_frame sendOk now t c _ st).1, (assignLoop_frame sendOk now t c _ st).2.2⟩

theorem process_issue_queue_keeps_store (sendOk : String → Bool) (now : ℚ) (st : BaseState) :
    (process_issue_queue sendOk now st).1.store = st.store := rfl

theorem process_issue_queue_keeps_tasks (sendOk : String → Bool) (now : ℚ) (st : BaseState) :
    (process_issue_queue sendOk now st).1.activeTasks = st.activeTasks := rfl

theorem process_issue_queue_keeps_q (sendOk : String → Bool) (now : ℚ) (st : BaseState) :
    (process_issue_queue sendOk now st).1.q = st.q := rfl

theorem process_issue_queue_nil_pending (sendOk : String → Bool) (now : ℚ) (st : BaseState)
    (h : st.pending = []) : process_issue_queue sendOk now st = (st, []) := by
  obtain ⟨d0, n0, s0, p0, a0, q0⟩ := st
  have hp : p0 = [] := h
  subst hp
  simp [process_issue_queue, queueDrainGo]

theorem releaseFirst_eq (sender_id client_ip : String) (pre post : List Device) (d : Device)
    (hpre : ∀ d' ∈ pre, ¬(d'.devId = sender_id ∨ d'.ip = client_ip))
    (hd : d.devId = sender_id ∨ d.ip = client_ip) :
    releaseFirst sender_id client_ip (pre ++ d :: post) =
      some (pre ++ {d with taskId := none, currentTask := none, status := "READY"} :: post) := by
  induction pre with
  | nil =>
    simp only [List.nil_append, releaseFirst]
    rw [if_pos hd]
  | cons p rest ih =>
    have hp := hpre p (List.mem_cons_self _ _)
    have hih := ih (fun d' hd' => hpre d' (List.mem_cons_of_mem _ hd'))
    rw [List.cons_append]
    simp only [releaseFirst]
    rw [if_neg hp, hih]
    rfl

theorem handle_task_completed_parts (sendOk : String → Bool) (now : ℚ) (st : BaseState)
    (sid ip : String) (tid : Nat) (t : Option String) (c : Option Pos3) (sv : String)
    (devs : List Device) (hrel : releaseFirst sid ip st.devices = some devs) :
    handle_task_completed sendOk now st sid ip tid t c sv =
      process_issue_queue sendOk now
        { devices := devs
          nextId := st.nextId
          store :=
            match t, c with
            | some tt, some cc => removeAssoc st.store (issueKey tt cc)
            | _, _ => st.store
          pending := st.pending
          activeTasks :=
            match getAssoc st.activeTasks tid with
            | some _ => removeAssoc st.activeTasks tid
            | none => st.activeTasks
          q :=
            match getAssoc st.activeTasks tid with
            | some info =>
              update_q_table st.q info.qstate info.robotId (-(now - info.assignedAt))
            | none => st.q } := by
  unfold handle_task_completed
  rw [hrel]
  rcases hat : getAssoc st.activeTasks tid with _ | info <;>
    rcases t with _ | tt <;> rcases c with _ | cc <;> simp [hat]

/-- C8: on a TASK_COMPLETED frame.  If no device matches the sender id or
the connection address, nothing is mutated; the handler's result does not
depend on the frame's `status` value at all; when a device matches (first
match in insertion order), its assignment slot is cleared, its
`current_task` dropped and its status set to READY (stated here for a
state with an empty pending queue, so that the subsequent drain cannot
re-assign the freed agent); the Q-table is updated with reward
`-(now - assigned_at)` exactly when the carried `task_id` is an active
task, in which case that entry is removed from the active-task table. -/
theorem c8_task_completed (sendOk : String → Bool) (now : ℚ) (st : BaseState)
    (sender_id client_ip : String) (task_id : Nat) (t : Option String) (c : Option Pos3)
    (sv : String) :
    (releaseFirst sender_id client_ip st.devices = none →
      handle_task_completed sendOk now st sender_id client_ip task_id t c sv = (st, [])) ∧
    (∀ sv', handle_task_completed sendOk now st sender_id client_ip task_id t c sv =
      handle_task_completed sendOk now st sender_id client_ip task_id t c sv') ∧
    (∀ pre d post, st.devices = pre ++ d :: post →
      (∀ d' ∈ pre, ¬(d'.devId = sender_id ∨ d'.ip = client_ip)) →
      (d.devId = sender_id ∨ d.ip = client_ip) →
      st.pending = [] →
      (handle_task_completed sendOk now st sender_id client_ip task_id t c sv).1.devices =
        pre ++ {d with taskId := none, currentTask := none, status := "READY"} :: post) ∧
    (releaseFirst sender_id client_ip st.devices ≠ none →
      ∀ info, getAssoc st.activeTasks task_id = some info →
        (handle_task_completed sendOk now st sender_id client_ip task_id t c sv).1.q =
          update_q_table st.q info.qstate info.robotId (-(now - info.assignedAt)) ∧
        ((st.activeTasks.map Prod.fst).Nodup →
          getAssoc (handle_task_completed sendOk now st sender_id client_ip task_id t c
            sv).1.activeTasks task_id = none)) ∧
    (releaseFirst sender_id client_ip st.devices ≠ none →
      getAssoc st.activeTasks task_id = none →
        (handle_task_completed sendOk now st sender_id client_ip task_id t c sv).1.q = st.q ∧
        (handle_task_completed sendOk now st sender_id client_ip task_id t c
          sv).1.activeTasks = st.activeTasks) := by
  refine ⟨?_, fun sv' => rfl, ?_, ?_, ?_⟩
  · intro h
    simp [handle_task_completed, h]
  · intro pre d post hdev hpre hd hpend
    have hrel : releaseFirst sender_id client_ip st.devices =
        some (pre ++ {d with taskId := none, currentTask := none, status := "READY"} :: post) := by
      rw [hdev]
      exact releaseFirst_eq sender_id client_ip pre post d hpre hd
    rw [handle_task_completed_parts sendOk now st sender_id client_ip task_id t c sv _ hrel]
    rw [process_issue_queue_nil_pending sendOk now _ (by simp [hpend])]
  · intro hne info hat
    rcases Option.ne_none_iff_exists'.mp hne with ⟨devs, hrel⟩
    rw [handle_task_completed_parts sendOk now st sender_id client_ip task_id t c sv devs hrel]
    constructor
    · rw [process_issue_queue_keeps_q]
      simp [hat]
    · intro hnd
      rw [process_issue_queue_keeps_tasks]
      simp only [hat]
      exact getAssoc_removeAssoc_self st.activeTasks task_id hnd
  · intro hne hat
    rcases Option.ne_none_iff_exists'.mp hne with ⟨devs, hrel⟩
    rw [handle_task_completed_parts sendOk now st sender_id client_ip task_id t c sv devs hrel]
    constructor
    · rw [process_issue_queue_keeps_q]
      simp [hat]
    · rw [process_issue_queue_keeps_tasks]
      simp [hat]

/-- Busy example robot for the completion witness. -/
def c8Dev : Device :=
  ⟨"R1", "10.0.0.9", "robot", ⟨0, 0, 0⟩, some 7, some ⟨"rust", some ⟨65, 100, 10⟩, 3⟩, "BUSY"⟩

/-- Example state for the completion witness: one busy robot, one active
task, empty queue. -/
def c8State : BaseState :=
  ⟨[c8Dev], 8, [], [], [(7, ⟨"R1", "rust", ("rust", "far"), 3⟩)], []⟩

/-- C8 witness: a TASK_COMPLETED frame with status "failed" still clears
the robot's assignment slot and sets it READY. -/
theorem c8_task_completed_witness :
    (handle_task_completed (fun _ => true) 10 c8State "R1" "10.9.9.9" 7 none none
      "failed").1.devices =
      [⟨"R1", "10.0.0.9", "robot", ⟨0, 0, 0⟩, none, none, "READY"⟩] :=
  (c8_task_completed (fun _ => true) 10 c8State "R1" "10.9.9.9" 7 none none "failed").2.2.1
    [] c8Dev [] rfl (by simp) (Or.inl rfl) rfl

/-- Modelled from the spec (§3): the fingerprint the spec prescribes,
`(kind, round(x), round(y), round(z))`, stated for comparison with the
source's exact-coordinate key. -/
def specFingerprint (t : String) (c : Pos3) : String × ℤ × ℤ × ℤ :=
  (t, round c.x, round c.y, round c.z)

/-- First reported position for the rounding counterexample. -/
def c4PosA : Pos3 := ⟨65.2, 100, 10⟩

/-- Second reported position, within rounding granularity of the first. -/
def c4PosB : Pos3 := ⟨65.4, 100, 10⟩

/-- Empty initial state for the rounding counterexample. -/
def c4St0 : BaseState := ⟨[], 0, [], [], [], []⟩

/-- C4: counterexample.  Two rust reports at x = 65.2 and x = 65.4 have
the same spec fingerprint (both round to (rust, 65, 100, 10)), but the
source's key uses the exact coordinate values, so the keys differ and
the second report is admitted into the store instead of being
rejected. -/
theorem c4_counterexample :
    specFingerprint "rust" c4PosA = specFingerprint "rust" c4PosB ∧
    issueKey "rust" c4PosA ≠ issueKey "rust" c4PosB ∧
    ((handle_qr_scan (fun _ => false) 1
        (handle_qr_scan (fun _ => false) 0 c4St0 "D1" (some "rust") (some c4PosA)).1
        "D1" (some "rust") (some c4PosB)).1.store.map Prod.fst)
      = [issueKey "rust" c4PosA, issueKey "rust" c4PosB] := by
  refine ⟨by decide, by decide, by decide⟩

/-- C4 (amended): the deduplication fingerprint is the kind paired with
the exact reported coordinate values, with no rounding: two reports
collide exactly when kind and all three coordinates are equal; a scan
whose key is already live leaves the store unchanged, and a scan with a
fresh key appends its issue to the store. -/
theorem c4_amended (sendOk : String → Bool) (now : ℚ) (st : BaseState) (sid t : String)
    (c : Pos3) :
    (∀ t' c', issueKey t c = issueKey t' c' ↔ t = t' ∧ c = c') ∧
    (∀ rec, getAssoc st.store (issueKey t c) = some rec →
      (handle_qr_scan sendOk now st sid (some t) (some c)).1.store = st.store) ∧
    (getAssoc st.store (issueKey t c) = none →
      (handle_qr_scan sendOk now st sid (some t) (some c)).1.store =
        st.store ++ [(issueKey t c, ⟨t, c, sid⟩)]) := by
  refine ⟨?_, ?_, ?_⟩
  · intro t' c'
    obtain ⟨cx, cy, cz⟩ := c
    obtain ⟨cx', cy', cz'⟩ := c'
    simp [issueKey, Pos3.mk.injEq]
  · intro rec h
    have hs : storeScan st sid (some t) (some c) = st := by
      simp [storeScan, h]
    simp only [handle_qr_scan, hs]
    exact (handle_issue_detection_frame sendOk now st t (some c)).1
  · intro h
    have hs : storeScan st sid (some t) (some c) =
        {st with store := st.store ++ [(issueKey t c, ⟨t, c, sid⟩)]} := by
      simp [storeScan, h]
    simp only [handle_qr_scan, hs]
    rw [(handle_issue_detection_frame sendOk now
      {st with store := st.store ++ [(issueKey t c, ⟨t, c, sid⟩)]} t (some c)).1]

/-- C4 witness: a scan with a fresh key appends its issue. -/
theorem c4_amended_witness :
    (handle_qr_scan (fun _ => false) 0 c4St0 "D1" (some "rust") (some c4PosA)).1.store =
      c4St0.store ++ [(issueKey "rust" c4PosA, ⟨"rust", c4PosA, "D1"⟩)] :=
  (c4_amended (fun _ => false) 0 c4St0 "D1" "rust" c4PosA).2.2 rfl

/-- C10: a QR_SCAN carrying an unknown kind with coordinates.  The
dispatcher rejects the unknown kind outright — no selection, no
enqueue, no command, no state change; a scan whose key is fresh is
nevertheless inserted into the store (and nothing else happens); no
QR_SCAN processing ever removes a stored issue; and a TASK_COMPLETED
frame from a known device carrying the matching kind and coordinates
removes it. -/
theorem c10_unknown_kind (sendOk : String → Bool) (now : ℚ) (st : BaseState)
    (sender_id t : String) (c : Pos3) (hunk : issueLocationFor t = none) :
    handle_issue_detection sendOk now st t (some c) = (false, st, []) ∧
    (getAssoc st.store (issueKey t c) = none →
      handle_qr_scan sendOk now st sender_id (some t) (some c) =
        ({st with store := st.store ++ [(issueKey t c, ⟨t, c, sender_id⟩)]}, [])) ∧
    (∀ sid' t' c' rec, getAssoc st.store (issueKey t c) = some rec →
      getAssoc (handle_qr_scan sendOk now st sid' t' c').1.store (issueKey t c) = some rec) ∧
    (∀ sid ip tid sv, (st.store.map Prod.fst).Nodup →
      releaseFirst sid ip st.devices ≠ none →
      getAssoc (handle_task_completed sendOk now st sid ip tid (some t) (some c)
        sv).1.store (issueKey t c) = none) := by
  refine ⟨?_, ?_, ?_, ?_⟩
  · simp [handle_issue_detection, hunk]
  · intro h
    have hs : storeScan st sender_id (some t) (some c) =
        {st with store := st.store ++ [(issueKey t c, ⟨t, c, sender_id⟩)]} := by
      simp [storeScan, h]
    simp [handle_qr_scan, hs, handle_issue_detection, hunk]
  · intro sid' t' c' rec h
    have hkeep : ∀ st1 : BaseState, getAssoc st1.store (issueKey t c) = some rec →
        ∀ tt cc, getAssoc (handle_issue_detection sendOk now st1 tt cc).2.1.store
          (issueKey t c) = some rec := by
      intro st1 h1 tt cc
      rw [(handle_issue_detection_frame sendOk now st1 tt cc).1]
      exact h1
    rcases t' with _ | t'
    · simp only [handle_qr_scan, storeScan]
      exact h
    · rcases c' with _ | c'
      · simp only [handle_qr_scan, storeScan]
        exact hkeep st h t' none
      · simp only [handle_qr_scan]
        by_cases hdup : (getAssoc st.store (issueKey t' c')).isSome
        · have hs : storeScan st sid' (some t') (some c') = st := by
            simp [storeScan, hdup]
          rw [hs]
          exact hkeep st h t' (some c')
        · have hs : storeScan st sid' (some t') (some c') =
              {st with store := st.store ++ [(issueKey t' c', ⟨t', c', sid'⟩)]} := by
            simp only [storeScan, hdup, Bool.false_eq_true, if_neg, not_false_iff]
          rw [hs]
          exact hkeep _ (getAssoc_append_some st.store _ _ rec h) t' (some c')
  · intro sid ip tid sv hnd hne
    rcases Option.ne_none_iff_exists'.mp hne with ⟨devs, hrel⟩
    rw [handle_task_completed_parts sendOk now st sid ip tid (some t) (some c) sv devs hrel]
    rw [process_issue_queue_keeps_store]
    exact getAssoc_removeAssoc_self st.store (issueKey t c) hnd

/-- Empty example state for the unknown-kind witness. -/
def c10St : BaseState := ⟨[], 0, [], [], [], []⟩

/-- C10 witness: a scan with the unknown kind "sensor_fault" is stored
but triggers no dispatch and no enqueue. -/
theorem c10_unknown_kind_witness :
    handle_qr_scan (fun _ => true) 0 c10St "D1" (some "sensor_fault") (some ⟨1, 2, 3⟩) =
      ({c10St with
        store := [(issueKey "sensor_fault" ⟨1, 2, 3⟩, ⟨"sensor_fault", ⟨1, 2, 3⟩, "D1"⟩)]}, []) :=
  (c10_unknown_kind (fun _ => true) 0 c10St "D1" "sensor_fault" ⟨1, 2, 3⟩ (by decide)).2.1 rfl

end BaseStation
